import Mathlib

/-!
Shallow embedding of the mail-ingestion core of `ai-brain-infra`
(Go sources under `internal/sync`, `internal/eventstore/sqlite`,
`internal/nats`, `internal/providers/gmail`, `internal/providers/outlook`).

Machine state (the per-tenant SQLite store, the worker-manager map) is
modelled as explicit functional state; fallible Go calls are modelled with
`Except String` / `Option String` results; external services (Gmail API,
Microsoft Graph, the store's I/O layer) are modelled as oracles passed in
as data.  Each definition carries a pointer to the Go code it embeds.
-/

namespace AiBrain

/-! ## Data model: `internal/sync/provider.go` -/

/-- `ProviderName` constants (`provider.go`): `ProviderGoogle`/`ProviderMicrosoft`. -/
def providerGoogle : String := "GOOGLE"

def providerMicrosoft : String := "MICROSOFT"

/-- Association-list model of a Go `map[string]string`: insert overwrites the
existing binding for the key, otherwise appends. -/
def mapInsert (m : List (String × String)) (k v : String) : List (String × String) :=
  if m.any (fun p => p.1 = k) then
    m.map (fun p => if p.1 = k then (k, v) else p)
  else m ++ [(k, v)]

/-- Go map read `m[k]` with the zero value `""` when the key is absent. -/
def mapGet (m : List (String × String)) (k : String) : String :=
  match m.find? (fun p => p.1 = k) with
  | some p => p.2
  | none => ""

/-- `MessageMeta` (`internal/sync/provider.go`): normalized email metadata.
`messageDate` models the `time.Time` instant at second resolution (the
processor only ever reads `meta.MessageDate.Unix()`). -/
structure MessageMeta where
  provider : String
  userID : String
  inboxID : String
  messageID : String
  threadID : String
  subject : String
  sender : String
  toAddresses : List String
  ccAddresses : List String
  bccAddresses : List String
  snippet : String
  providerLabels : List String
  headers : List (String × String)
  messageDate : Int
  deriving Repr, DecidableEq

/-- `Checkpoint` (`internal/sync/provider.go`): opaque provider cursor. -/
structure Checkpoint where
  cursor : String
  deriving Repr, DecidableEq

/-! ## Per-tenant store: `schema.sql` + `internal/eventstore/sqlite` -/

/-- Row of `email_received_events` (`schema.sql`): sixteen columns, with
`UNIQUE(provider, provider_message_id)` and `event_id` as primary key. -/
structure EventRow where
  eventId : String
  ts : Int
  msgDate : Int
  provider : String
  inboxId : String
  userId : String
  providerMessageId : String
  providerThreadId : String
  subject : String
  sender : String
  toAddrs : String
  ccAddrs : String
  bccAddrs : String
  snippet : String
  headersJson : String
  labelsJson : String
  deriving Repr, DecidableEq

/-- Row of `outbox` (`schema.sql`): `published_at` is `NULL` (`none`) until
shipped; `retries` defaults to 0. -/
structure OutboxRow where
  id : Int
  ts : Int
  subject : String
  eventType : String
  payload : String
  msgId : String
  publishedAt : Option Int
  retries : Int
  nextAttemptAt : Int
  deriving Repr, DecidableEq

/-- The event-log + outbox portion of a per-tenant store, as lists of
committed rows in insertion order. -/
structure Db where
  events : List EventRow
  outbox : List OutboxRow
  deriving Repr, DecidableEq

def emptyDb : Db := ⟨[], []⟩

/-- Next `AUTOINCREMENT` id for the outbox table (ids start at 1). -/
def nextOutboxId (db : Db) : Int :=
  (db.outbox.map (fun r => r.id)).foldl max 0 + 1

/-- `INSERT OR IGNORE` conflict test for `email_received_events`: the row is
silently skipped when the `event_id` primary key or the
`UNIQUE(provider, provider_message_id)` constraint collides. -/
def insertConflicts (db : Db) (eventId provider providerMessageId : String) : Bool :=
  db.events.any (fun r =>
    r.eventId = eventId || (r.provider = provider && r.providerMessageId = providerMessageId))

/-- `Store.AppendEmailReceivedTx` (`internal/eventstore/sqlite/store.go`):
inside one transaction, `INSERT OR IGNORE` the event row (a UNIQUE collision
is a silent no-op) and then unconditionally insert the outbox row.  `now`
stands for the `time.Now().Unix()` values used for `ts`/`next_attempt_at`. -/
def appendEmailReceivedTx (db : Db)
    (eventId : String) (ts msgDate : Int)
    (provider inboxId userId providerMessageId providerThreadId : String)
    (subject sender toAddrs ccAddrs bccAddrs snippet headersJson labelsJson : String)
    (natsSubject eventType : String) (payload : String) (msgId : String)
    (now : Int) : Db :=
  let events :=
    if insertConflicts db eventId provider providerMessageId then db.events
    else db.events ++ [⟨eventId, ts, msgDate, provider, inboxId, userId,
      providerMessageId, providerThreadId, subject, sender, toAddrs, ccAddrs,
      bccAddrs, snippet, headersJson, labelsJson⟩]
  { events := events,
    outbox := db.outbox ++
      [⟨nextOutboxId db, now, natsSubject, eventType, payload, msgId, none, 0, now⟩] }

/-! ## Event processor: `Runner.createProcessor` (`internal/sync/runner.go`) -/

/-- Idempotency key: `fmt.Sprintf("email.received|%s|%s", meta.Provider, meta.MessageID)`. -/
def emailReceivedMsgId (provider messageID : String) : String :=
  "email.received|" ++ provider ++ "|" ++ messageID

/-- Bus subject: `fmt.Sprintf("user.%s.email.received", userID)`. -/
def userEmailSubject (userID : String) : String :=
  "user." ++ userID ++ ".email.received"

/-- Model of `json.Marshal` on a `[]string`.  The exact bytes are not part of
the contract (spec §4.5.3); string escaping is not modelled. -/
def marshalList (xs : List String) : String :=
  "[" ++ String.intercalate "," (xs.map (fun s => "\x22" ++ s ++ "\x22")) ++ "]"

/-- Model of `json.Marshal` on a `map[string]string` (keys in stored order;
Go sorts map keys, which is irrelevant to every property proved here). -/
def marshalMap (m : List (String × String)) : String :=
  "\x7b" ++ String.intercalate ","
    (m.map (fun p => "\x22" ++ p.1 ++ "\x22:\x22" ++ p.2 ++ "\x22")) ++ "\x7d"

/-- Model of `json.Marshal` on the NATS event payload map built in
`createProcessor` (16 fields); byte-level encoding is not contract. -/
def marshalEventPayload (eventId : String) (ts msgDate : Int)
    (provider inboxId userId providerMessageId providerThreadId : String)
    (subject sender : String) (toA ccA bccA : List String)
    (snippet : String) (headers : List (String × String))
    (labels : List String) : String :=
  "\x7b" ++ String.intercalate ","
    [ "\x22bcc_addrs\x22:" ++ marshalList bccA
    , "\x22cc_addrs\x22:" ++ marshalList ccA
    , "\x22event_id\x22:\x22" ++ eventId ++ "\x22"
    , "\x22headers\x22:" ++ marshalMap headers
    , "\x22inbox_id\x22:\x22" ++ inboxId ++ "\x22"
    , "\x22labels\x22:" ++ marshalList labels
    , "\x22msg_date\x22:" ++ toString msgDate
    , "\x22provider\x22:\x22" ++ provider ++ "\x22"
    , "\x22provider_message_id\x22:\x22" ++ providerMessageId ++ "\x22"
    , "\x22provider_thread_id\x22:\x22" ++ providerThreadId ++ "\x22"
    , "\x22sender\x22:\x22" ++ sender ++ "\x22"
    , "\x22snippet\x22:\x22" ++ snippet ++ "\x22"
    , "\x22subject\x22:\x22" ++ subject ++ "\x22"
    , "\x22to_addrs\x22:" ++ marshalList toA
    , "\x22ts\x22:" ++ toString ts
    , "\x22user_id\x22:\x22" ++ userId ++ "\x22" ] ++ "\x7d"

/-- Failure oracle for the three fallible steps of the processor's
transaction: `store.DB.BeginTx`, the two inserts inside
`AppendEmailReceivedTx`, and `tx.Commit`.  `none` means the step succeeds. -/
structure TxFault where
  beginErr : Option String
  execErr : Option String
  commitErr : Option String
  deriving Repr, DecidableEq

def noFault : TxFault := ⟨none, none, none⟩

/-- One invocation of the closure returned by `Runner.createProcessor`
(`runner.go:128-210`) on a normalized record.  Control flow of the source:

* `BeginTx` failure → return the error;
* `AppendEmailReceivedTx` failure → `tx.Rollback()` and **return nil**
  (the code comments "Ignore duplicate errors (UNIQUE constraint
  violations)", and swallows every error on this path);
* `Commit` failure → return the error (nothing committed);
* otherwise commit the event+outbox write.

`eventID` stands for the fresh `uuid.NewString()`, `nowTs` for
`time.Now().Unix()`. -/
def processMessage (userID inboxID eventID : String) (nowTs : Int)
    (fault : TxFault) (db : Db) (meta : MessageMeta) : Db × Except String Unit :=
  let ts := nowTs
  let msgDate := meta.messageDate
  let toAddrsJSON := marshalList meta.toAddresses
  let ccAddrsJSON := marshalList meta.ccAddresses
  let bccAddrsJSON := marshalList meta.bccAddresses
  let headersJSON := marshalMap meta.headers
  let labelsJSON := marshalList meta.providerLabels
  let payload := marshalEventPayload eventID ts msgDate meta.provider inboxID
    userID meta.messageID meta.threadID meta.subject meta.sender
    meta.toAddresses meta.ccAddresses meta.bccAddresses meta.snippet meta.headers meta.providerLabels
  let msgID := emailReceivedMsgId meta.provider meta.messageID
  let subject := userEmailSubject userID
  match fault.beginErr with
  | some e => (db, .error ("failed to begin transaction: " ++ e))
  | none =>
    match fault.execErr with
    | some _ => (db, .ok ())
    | none =>
      let db2 := appendEmailReceivedTx db eventID ts msgDate meta.provider
        inboxID userID meta.messageID meta.threadID meta.subject meta.sender
        toAddrsJSON ccAddrsJSON bccAddrsJSON meta.snippet headersJSON
        labelsJSON subject "email.received" payload msgID nowTs
      match fault.commitErr with
      | some e => (db, .error ("failed to commit transaction: " ++ e))
      | none => (db2, .ok ())

/-- Fault-free processing of a stream of records handed to the processor by
an adapter, with fresh event ids (`uuid.NewString()` modelled as an
index-based fresh name). -/
def processStream (userID inboxID : String) (nowTs : Int) (n : Nat)
    (db : Db) : List MessageMeta → Db
  | [] => db
  | meta :: rest =>
      processStream userID inboxID nowTs (n + 1)
        (processMessage userID inboxID ("evt-" ++ toString n) nowTs noFault db meta).1
        rest

/-! ## Sync-state table: `provider_sync_state` (`schema.sql`) and its
operations in `internal/eventstore/sqlite/store.go` -/

/-- Row of `provider_sync_state` (`schema.sql`): keyed by `provider`
(`PRIMARY KEY`); `retry_count` defaults to 0.  `NULL` text columns are
modelled as `""` (the Go reader scans them through `sql.NullString` whose
zero value is `""`). -/
structure SyncStateRow where
  provider : String
  inboxId : String
  cursor : String
  lastSyncedAt : Int
  status : String
  lastError : String
  retryCount : Int
  updatedAt : Int
  deriving Repr, DecidableEq

/-- The `provider_sync_state` table: at most one row per provider. -/
abbrev SyncTable : Type := List SyncStateRow

/-- `Store.LoadCheckpoint` success path: `SELECT cursor FROM
provider_sync_state WHERE provider = ?`, with `sql.ErrNoRows` (and a `NULL`
cursor) read as `""`. -/
def loadCursor (tbl : SyncTable) (provider : String) : String :=
  match tbl.find? (fun r => r.provider = provider) with
  | some r => r.cursor
  | none => ""

/-- `Store.LoadCheckpoint` including its failure behaviour: on a query error
it returns `("", err)`; otherwise the stored cursor and no error.  The
`fault` oracle injects the store I/O failure. -/
def loadCheckpointResult (tbl : SyncTable) (provider : String)
    (fault : Option String) : String × Option String :=
  match fault with
  | some e => ("", some ("failed to load checkpoint: " ++ e))
  | none => (loadCursor tbl provider, none)

/-- `Store.SaveCheckpoint`: `INSERT ... ON CONFLICT(provider) DO UPDATE SET
cursor, last_synced_at, status, updated_at` — an upsert that overwrites the
cursor and status and stamps both timestamps with `now`. -/
def saveCheckpoint (tbl : SyncTable) (provider inboxId cursor status : String)
    (now : Int) : SyncTable :=
  if tbl.any (fun r => r.provider = provider) then
    tbl.map (fun r =>
      if r.provider = provider then
        { r with cursor := cursor, lastSyncedAt := now, status := status, updatedAt := now }
      else r)
  else tbl ++ [⟨provider, inboxId, cursor, now, status, "", 0, now⟩]

/-- `Store.UpdateSyncStatus`: `UPDATE provider_sync_state SET status,
last_error, retry_count = retry_count + (err ≠ "" ? 1 : 0), updated_at WHERE
provider = ?` — touches neither `cursor` nor `last_synced_at`, and updates
nothing when no row exists. -/
def updateSyncStatus (tbl : SyncTable) (provider status errMsg : String)
    (now : Int) : SyncTable :=
  tbl.map (fun r =>
    if r.provider = provider then
      { r with
          status := status
          lastError := errMsg
          retryCount := r.retryCount + (if errMsg ≠ "" then 1 else 0)
          updatedAt := now }
    else r)

/-! ## Sync runner: `Runner.RunInbox` (`internal/sync/runner.go:29-125`) -/

/-- First pass of `RunInbox` (`runner.go:45-84`): load the checkpoint (a load
error is only logged, leaving the `""` cursor that `LoadCheckpoint` returned
on error); write `(cursor, SYNCING)`; run `InitialBackfill` when the cursor
is empty, else `IncrementalSync`; on adapter error write `ERROR` via
`UpdateSyncStatus` and **return** the error from `RunInbox` (second
component `some …`); on success upsert `(returned cursor, HOOKED)` when the
adapter returned a non-nil checkpoint.  `SaveCheckpoint` failures are only
logged and are not modelled as faults here.  The adapters are passed as the
result oracles `backfill` and `incr`. -/
def firstPass (provider inboxId : String) (now : Int) (loadFault : Option String)
    (backfill : Except String (Option Checkpoint))
    (incr : String → Except String (Option Checkpoint))
    (tbl : SyncTable) : SyncTable × Option String :=
  let cursorVal := (loadCheckpointResult tbl provider loadFault).1
  let st1 := saveCheckpoint tbl provider inboxId cursorVal "SYNCING" now
  let res := if cursorVal = "" then backfill else incr cursorVal
  match res with
  | .error e => (updateSyncStatus st1 provider "ERROR" e now, some ("sync failed: " ++ e))
  | .ok none => (st1, none)
  | .ok (some cp) => (saveCheckpoint st1 provider inboxId cp.cursor "HOOKED" now, none)

/-- One iteration of the steady-state 30 s ticker loop of `RunInbox`
(`runner.go:90-124`): reload the checkpoint (skip the tick on a load error
or an empty cursor), run `IncrementalSync`; on error `UpdateSyncStatus
(ERROR)` and `continue`; on success `SaveCheckpoint(cursor, HOOKED)` **only
when** the returned checkpoint is non-nil and its cursor differs from the
loaded one.  The loop itself always continues — the function returns the
table after the tick. -/
def steadyTick (provider inboxId : String) (now : Int) (loadFault : Option String)
    (incr : String → Except String (Option Checkpoint))
    (tbl : SyncTable) : SyncTable :=
  match loadCheckpointResult tbl provider loadFault with
  | (_, some _) => tbl
  | (cursorVal, none) =>
    if cursorVal = "" then tbl
    else
      match incr cursorVal with
      | .error e => updateSyncStatus tbl provider "ERROR" e now
      | .ok none => tbl
      | .ok (some cp) =>
          if cp.cursor ≠ cursorVal then
            saveCheckpoint tbl provider inboxId cp.cursor "HOOKED" now
          else tbl

/-! ## Worker manager: `internal/sync/manager.go` -/

/-- Key of the runner map: `fmt.Sprintf("%s:%s:%s", userID, inboxID, provider)`. -/
def syncKey (userID inboxID provider : String) : String :=
  userID ++ ":" ++ inboxID ++ ":" ++ provider

/-- The manager's `runners map[string]context.CancelFunc`, modelled as the
list of registered keys (the cancel handles carry no data relevant here).
A Go map cannot hold a key twice; the `Nodup` invariant is proved below. -/
abbrev RunnerMap : Type := List String

/-- `Manager.StartSync` (`manager.go:46-106`), executed under the exclusive
lock.  In source order: reject when the key is present ("sync already
running"); map the provider name (unknown names are "unsupported
provider"); fetch the token; build the adapter via the factory; only then
register the cancel handle and launch.  `tokenRes`/`factoryRes` are oracles
for the two fallible external calls.  Returns the new map and `some err` on
failure. -/
def startSync (m : RunnerMap) (userID inboxID provider : String)
    (tokenRes factoryRes : Except String Unit) : RunnerMap × Option String :=
  let key := syncKey userID inboxID provider
  if m.contains key then (m, some "sync already running")
  else if provider = providerGoogle ∨ provider = providerMicrosoft then
    match tokenRes with
    | .error e => (m, some ("get token: " ++ e))
    | .ok _ =>
      match factoryRes with
      | .error e => (m, some ("create provider: " ++ e))
      | .ok _ => (key :: m, none)
  else (m, some "unsupported provider")

/-- `Manager.StopSync` (`manager.go:109-123`): under the exclusive lock,
cancel and `delete` the handle; report "no sync running" when absent. -/
def stopSync (m : RunnerMap) (userID inboxID provider : String) :
    RunnerMap × Option String :=
  let key := syncKey userID inboxID provider
  if m.contains key then (m.erase key, none)
  else (m, some ("no sync running for " ++ key))

/-- `Manager.StopAll` (`manager.go:137-147`): cancel every handle and replace
the map with a fresh empty one. -/
def stopAllSyncs (_ : RunnerMap) : RunnerMap := []

/-- `Manager.IsRunning` (`manager.go:126-134`), under the shared lock. -/
def isRunning (m : RunnerMap) (userID inboxID provider : String) : Bool :=
  m.contains (syncKey userID inboxID provider)

/-- The manager operations that mutate the map, each taken under the
exclusive lock: `StartSync`, `StopSync`, the self-removal a runner performs
when it exits on its own (`manager.go:99-101`), and `StopAll`. -/
inductive MgrOp where
  | start (userID inboxID provider : String) (tokenRes factoryRes : Except String Unit)
  | stop (userID inboxID provider : String)
  | exitSelf (userID inboxID provider : String)
  | stopAll
  deriving Repr

def applyMgrOp (m : RunnerMap) : MgrOp → RunnerMap
  | .start u i p t f => (startSync m u i p t f).1
  | .stop u i p => (stopSync m u i p).1
  | .exitSelf u i p => m.erase (syncKey u i p)
  | .stopAll => stopAllSyncs m

/-- A run of the manager from process start (`NewManager` creates an empty
map), applying the mutating operations in order. -/
def applyMgrOps (ops : List MgrOp) : RunnerMap :=
  ops.foldl applyMgrOp []

/-! ## Gmail adapter: `internal/providers/gmail/adapter.go` -/

/-- `gmail.Message` fields read by `normalize`: id, threadId, snippet,
labelIds, millisecond internal date, and the payload headers in provider
order. -/
structure GmailMessage where
  id : String
  threadId : String
  snippet : String
  labelIds : List String
  internalDate : Int
  payloadHeaders : List (String × String)
  deriving Repr, DecidableEq

/-- One entry of `gmail.ListHistoryResponse.History`: the history id and the
ids of the messages in `MessagesAdded`. -/
structure HistoryRecord where
  id : Nat
  messagesAdded : List String
  deriving Repr, DecidableEq

/-- Oracle for the Gmail API as seen by the adapter.  `listPages` are the
pages served by `Users.Messages.List` (driven to completion by
`call.Pages`), flattened per page to the listed message ids; `listErr` is a
pagination failure arriving after those pages.  `historyRecords` and
`historyErr` play the same role for `Users.History.List` (pages flattened,
since the page callback only iterates the records).  `getMessage` is
`Users.Messages.Get(user, id).Format("metadata")` and `profile` is
`Users.GetProfile` returning `HistoryId`. -/
structure GmailService where
  listPages : List (List String)
  listErr : Option String
  getMessage : String → Except String GmailMessage
  historyRecords : List HistoryRecord
  historyErr : Option String
  profile : Except String Nat

/-- `splitAddrs` (`adapter.go:168-181`): split on `,`, trim each part, drop
empty parts. -/
def splitAddrs (s : String) : List String :=
  if s = "" then []
  else ((s.splitOn ",").map String.trim).filter (fun p => p ≠ "")

/-- `normalize` (`adapter.go:143-165`): headers keyed by provider-supplied
name (later duplicates overwrite), `To`/`Cc`/`Bcc` via `splitAddrs`,
`inbox_id = "primary"`, message date `time.UnixMilli(internalDate)`
projected to seconds. -/
def normalize (m : GmailMessage) (userID : String) : MessageMeta :=
  let headers := m.payloadHeaders.foldl (fun acc kv => mapInsert acc kv.1 kv.2) []
  { provider := providerGoogle
    userID := userID
    inboxID := "primary"
    messageID := m.id
    threadID := m.threadId
    subject := mapGet headers "Subject"
    sender := mapGet headers "From"
    toAddresses := splitAddrs (mapGet headers "To")
    ccAddresses := splitAddrs (mapGet headers "Cc")
    bccAddresses := splitAddrs (mapGet headers "Bcc")
    snippet := m.snippet
    providerLabels := m.labelIds
    headers := headers
    messageDate := m.internalDate.fdiv 1000 }

/-- The sink handed to an adapter call, as the error oracle of the Go
`func(sync.MessageMeta) error`: `none` means the call returned nil. -/
abbrev SinkFn : Type := MessageMeta → Option String

/-- Inner loop of `InitialBackfill`'s page callback (`adapter.go:52-66`):
fetch each listed message in metadata format, normalize, hand to the sink;
a fetch or sink error aborts pagination.  Returns the records delivered to
the sink (in order) and the first error. -/
def gmailFetchLoop (svc : GmailService) (fn : SinkFn) (user : String) :
    List String → List MessageMeta → List MessageMeta × Option String
  | [], acc => (acc, none)
  | mid :: rest, acc =>
    match svc.getMessage mid with
    | .error e => (acc, some ("failed to get message " ++ mid ++ ": " ++ e))
    | .ok m =>
      let nm := normalize m user
      match fn nm with
      | some e => (acc ++ [nm], some e)
      | none => gmailFetchLoop svc fn user rest (acc ++ [nm])

/-- `Adapter.InitialBackfill` (`adapter.go:48-79`): drive
`Users.Messages.List` pagination to completion, fetching and delivering
every listed message; on error return `failed to backfill messages`.  Then
read the profile: a non-zero `HistoryId` becomes the fresh cursor, while a
profile error or a zero id yield `&Checkpoint{}` (empty cursor) with **no**
error. -/
def gmailInitialBackfill (svc : GmailService) (fn : SinkFn) (user : String) :
    List MessageMeta × Except String (Option Checkpoint) :=
  let out := gmailFetchLoop svc fn user svc.listPages.flatten []
  let errTotal : Option String :=
    match out.2 with
    | some e => some e
    | none => svc.listErr
  match errTotal with
  | some e => (out.1, .error ("failed to backfill messages: " ++ e))
  | none =>
    match svc.profile with
    | .ok hid =>
        if hid ≠ 0 then (out.1, .ok (some ⟨toString hid⟩))
        else (out.1, .ok (some ⟨""⟩))
    | .error _ => (out.1, .ok (some ⟨""⟩))

/-- Accumulator of `IncrementalSync`'s history walk: `latestHistoryID`, the
`processedMessages` set (as the list of marked ids), and the records
delivered to the sink so far. -/
structure HistAcc where
  latest : Nat
  processed : List String
  delivered : List MessageMeta
  deriving Repr

/-- Inner loop over one history record's `MessagesAdded`
(`adapter.go:108-125`): skip ids already in `processedMessages`, mark the
id, fetch metadata, normalize, deliver. -/
def gmailProcessAdded (svc : GmailService) (fn : SinkFn) (user : String) :
    List String → HistAcc → HistAcc × Option String
  | [], acc => (acc, none)
  | mid :: rest, acc =>
    if acc.processed.contains mid then gmailProcessAdded svc fn user rest acc
    else
      let acc1 := { acc with processed := acc.processed ++ [mid] }
      match svc.getMessage mid with
      | .error e => (acc1, some ("failed to get message " ++ mid ++ ": " ++ e))
      | .ok m =>
        let nm := normalize m user
        let acc2 := { acc1 with delivered := acc1.delivered ++ [nm] }
        match fn nm with
        | some e => (acc2, some e)
        | none => gmailProcessAdded svc fn user rest acc2

/-- Walk of the history records (`adapter.go:100-128`): per record, raise
`latestHistoryID` when `history.Id` exceeds it, then process
`MessagesAdded`; an error aborts the walk. -/
def gmailProcessHistory (svc : GmailService) (fn : SinkFn) (user : String) :
    List HistoryRecord → HistAcc → HistAcc × Option String
  | [], acc => (acc, none)
  | rec :: rest, acc =>
    let acc0 := { acc with latest := if rec.id > acc.latest then rec.id else acc.latest }
    match gmailProcessAdded svc fn user rec.messagesAdded acc0 with
    | (acc1, some e) => (acc1, some e)
    | (acc1, none) => gmailProcessHistory svc fn user rest acc1

/-- Complete history phase: the walk over the listed records followed by the
trailing pagination error of `Users.History.List`, if any. -/
def gmailHistoryOutcome (svc : GmailService) (fn : SinkFn) (user : String)
    (start : Nat) : HistAcc × Option String :=
  let out := gmailProcessHistory svc fn user svc.historyRecords ⟨start, [], []⟩
  match out.2 with
  | some e => (out.1, some e)
  | none => (out.1, svc.historyErr)

/-- `strconv.ParseUint(s, 10, 64)`: decimal digits only, 64-bit range,
modelled over the string\x27s character list. -/
def parseUint64 (s : String) : Option Nat :=
  if s.data ≠ [] ∧ s.data.all Char.isDigit then
    let n := s.data.foldl (fun acc c => acc * 10 + (c.toNat - 48)) 0
    if n < 2 ^ 64 then some n else none
  else none

/-- Character-level check that `pat` begins the given list. -/
def startsWithChars : List Char → List Char → Bool
  | [], _ => true
  | _ :: _, [] => false
  | c :: cs, d :: ds => c = d && startsWithChars cs ds

/-- Character-level substring search. -/
def charsContain (pat : List Char) : List Char → Bool
  | [] => decide (pat = [])
  | c :: rest => startsWithChars pat (c :: rest) || charsContain pat rest

/-- `strings.Contains`, modelled over the character lists. -/
def hasSubstr (s pat : String) : Bool :=
  charsContain pat.data s.data

/-- `Adapter.IncrementalSync` (`adapter.go:82-140`): an empty cursor means
full backfill; a non-numeric cursor is `invalid history ID in cursor`;
otherwise walk `Users.History.List` from the parsed id.  On a history error
whose text contains `"404"` or `"historyId"` (stale cursor), **fall back to
a full backfill through the same sink**; other errors surface as
`failed to sync history`.  On success the new cursor is the decimal
rendering of `latestHistoryID`. -/
def gmailIncrementalSync (svc : GmailService) (fn : SinkFn) (user : String)
    (cp : Checkpoint) : List MessageMeta × Except String (Option Checkpoint) :=
  if cp.cursor = "" then gmailInitialBackfill svc fn user
  else
    match parseUint64 cp.cursor with
    | none => ([], .error "invalid history ID in cursor")
    | some start =>
      let out := gmailHistoryOutcome svc fn user start
      match out.2 with
      | some e =>
        if hasSubstr e "404" || hasSubstr e "historyId" then
          let bf := gmailInitialBackfill svc fn user
          (out.1.delivered ++ bf.1, bf.2)
        else (out.1.delivered, .error ("failed to sync history: " ++ e))
      | none => (out.1.delivered, .ok (some ⟨toString out.1.latest⟩))

/-! ## Outlook/Graph adapter: `internal/providers/outlook/adapter.go` -/

/-- The fields of a Graph `Messageable` read by `normalizeOutlook`; every
getter may return nil (`none`).  `fromAddress` collapses the
`GetFrom().GetEmailAddress().GetAddress()` chain; each recipient likewise
carries its optional address. -/
structure OutlookMessage where
  id : Option String
  conversationId : Option String
  subject : Option String
  fromAddress : Option String
  toRecipients : Option (List (Option String))
  ccRecipients : Option (List (Option String))
  bccRecipients : Option (List (Option String))
  bodyPreview : Option String
  receivedDateTime : Option Int
  internetMessageHeaders : Option (List (Option String × Option String))
  deriving Repr, DecidableEq

/-- Oracle for the Graph API: the pages the server would serve for the
`Messages().Get` request with `Top: 100` (the adapter only ever requests the
first one), and the call's failure. -/
structure GraphService where
  pages : List (List OutlookMessage)
  listErr : Option String
  deriving Repr, DecidableEq

/-- `extractAddresses` (`part_005`): keep the recipients whose address chain
is non-nil, preserving order. -/
def extractAddresses (recipients : List (Option String)) : List String :=
  recipients.filterMap id

/-- `normalizeOutlook` (`part_005`): start from the zero-valued record with
`provider = MICROSOFT`, `inbox_id = "inbox"`, and set each field only when
the corresponding getter is non-nil; headers keep entries whose name and
value are both present (later duplicates overwrite). -/
def normalizeOutlook (m : OutlookMessage) (userID : String) : MessageMeta :=
  { provider := providerMicrosoft
    userID := userID
    inboxID := "inbox"
    messageID := m.id.getD ""
    threadID := m.conversationId.getD ""
    subject := m.subject.getD ""
    sender := m.fromAddress.getD ""
    toAddresses := match m.toRecipients with
      | some rs => extractAddresses rs
      | none => []
    ccAddresses := match m.ccRecipients with
      | some rs => extractAddresses rs
      | none => []
    bccAddresses := match m.bccRecipients with
      | some rs => extractAddresses rs
      | none => []
    snippet := m.bodyPreview.getD ""
    providerLabels := []
    headers := match m.internetMessageHeaders with
      | some hs => hs.foldl (fun acc h =>
          match h.1, h.2 with
          | some n, some v => mapInsert acc n v
          | _, _ => acc) []
      | none => []
    messageDate := m.receivedDateTime.getD 0 }

/-- Delivery loop of the Outlook adapter over `result.GetValue()`
(`part_005`): normalize each message and hand it to the sink; a sink error
aborts. -/
def outlookDeliverLoop (fn : SinkFn) (user : String) :
    List OutlookMessage → List MessageMeta → List MessageMeta × Option String
  | [], acc => (acc, none)
  | m :: rest, acc =>
    let nm := normalizeOutlook m user
    match fn nm with
    | some e => (acc ++ [nm], some e)
    | none => outlookDeliverLoop fn user rest (acc ++ [nm])

/-- Cursor computation shared by both Outlook methods: the id of the last
message of the (single) retrieved page when present, else the fallback
checkpoint. -/
def outlookCursorFromPage (page : List OutlookMessage) (fallback : Checkpoint) :
    Option Checkpoint :=
  match page.getLast? with
  | some lastMsg =>
    match lastMsg.id with
    | some i => some ⟨i⟩
    | none => some fallback
  | none => some fallback

/-- `Adapter.InitialBackfill` (Outlook, `part_005:42-76`): one
`Messages().Get` call with `Top: 100` — only `result.GetValue()` (the first
page) is processed; no `nextLink` is followed.  The cursor is the last
message's id, else `&Checkpoint{}`. -/
def outlookInitialBackfill (svc : GraphService) (fn : SinkFn) (user : String) :
    List MessageMeta × Except String (Option Checkpoint) :=
  match svc.listErr with
  | some e => ([], .error ("failed to list messages: " ++ e))
  | none =>
    let page := svc.pages.headD []
    let out := outlookDeliverLoop fn user page []
    match out.2 with
    | some e => (out.1, .error e)
    | none => (out.1, .ok (outlookCursorFromPage page ⟨""⟩))

/-- `Adapter.IncrementalSync` (Outlook, `part_005:79-119`): empty cursor ⇒
backfill; otherwise the **same single-page** `Messages().Get` request (the
delta link is not used), delivering only the first page; the cursor becomes
the last message's id, else the incoming cursor is echoed back. -/
def outlookIncrementalSync (svc : GraphService) (fn : SinkFn) (user : String)
    (cp : Checkpoint) : List MessageMeta × Except String (Option Checkpoint) :=
  if cp.cursor = "" then outlookInitialBackfill svc fn user
  else
    match svc.listErr with
    | some e => ([], .error ("failed to sync messages: " ++ e))
    | none =>
      let page := svc.pages.headD []
      let out := outlookDeliverLoop fn user page []
      match out.2 with
      | some e => (out.1, .error e)
      | none => (out.1, .ok (outlookCursorFromPage page cp))

/-! ## Theorems -/

/-! ### C1: event-log deduplication with unconditional outbox rows -/

/-- The event row that `createProcessor` hands to `AppendEmailReceivedTx`
for a record `meta` (column order of `email_received_events`). -/
def mkEventRow (userID inboxID eventID : String) (nowTs : Int)
    (meta : MessageMeta) : EventRow :=
  ⟨eventID, nowTs, meta.messageDate, meta.provider, inboxID, userID,
    meta.messageID, meta.threadID, meta.subject, meta.sender,
    marshalList meta.toAddresses, marshalList meta.ccAddresses,
    marshalList meta.bccAddresses, meta.snippet, marshalMap meta.headers,
    marshalList meta.providerLabels⟩

lemma processMessage_noFault_fst (userID inboxID eventID : String)
    (nowTs : Int) (db : Db) (meta : MessageMeta) :
    (processMessage userID inboxID eventID nowTs noFault db meta).1 =
      { events :=
          if insertConflicts db eventID meta.provider meta.messageID then db.events
          else db.events ++ [mkEventRow userID inboxID eventID nowTs meta],
        outbox := db.outbox ++
          [⟨nextOutboxId db, nowTs, userEmailSubject userID, "email.received",
            marshalEventPayload eventID nowTs meta.messageDate meta.provider
              inboxID userID meta.messageID meta.threadID meta.subject
              meta.sender meta.toAddresses meta.ccAddresses meta.bccAddresses
              meta.snippet meta.headers meta.providerLabels,
            emailReceivedMsgId meta.provider meta.messageID, none, 0, nowTs⟩] } := by
  simp [processMessage, noFault, appendEmailReceivedTx, mkEventRow]

lemma processMessage_noFault_events_of_dup (userID inboxID eventID : String)
    (nowTs : Int) (db : Db) (meta : MessageMeta)
    (h : db.events.any
      (fun r => r.provider = meta.provider && r.providerMessageId = meta.messageID) = true) :
    (processMessage userID inboxID eventID nowTs noFault db meta).1.events = db.events := by
  have hc : insertConflicts db eventID meta.provider meta.messageID = true := by
    unfold insertConflicts
    rcases List.any_eq_true.1 h with ⟨r, hr, hpr⟩
    exact List.any_eq_true.2 ⟨r, hr, by simp_all⟩
  rw [processMessage_noFault_fst]
  simp [hc]

lemma processMessage_noFault_outbox_msgIds (userID inboxID eventID : String)
    (nowTs : Int) (db : Db) (meta : MessageMeta) :
    (processMessage userID inboxID eventID nowTs noFault db meta).1.outbox.map
        (fun r => r.msgId) =
      db.outbox.map (fun r => r.msgId) ++ [emailReceivedMsgId meta.provider meta.messageID] := by
  rw [processMessage_noFault_fst]
  simp

lemma processStream_replicate_dup (userID inboxID : String) (nowTs : Int)
    (meta : MessageMeta) :
    ∀ (k n : Nat) (db : Db),
      db.events.any
        (fun r => r.provider = meta.provider && r.providerMessageId = meta.messageID) = true →
      (processStream userID inboxID nowTs n db (List.replicate k meta)).events = db.events ∧
      (processStream userID inboxID nowTs n db (List.replicate k meta)).outbox.map
          (fun r => r.msgId) =
        db.outbox.map (fun r => r.msgId) ++
          List.replicate k (emailReceivedMsgId meta.provider meta.messageID)
  | 0, n, db, _ => by simp [processStream]
  | k + 1, n, db, h => by
    rw [List.replicate_succ]
    simp only [processStream]
    set db1 := (processMessage userID inboxID ("evt-" ++ toString n) nowTs noFault db meta).1
      with hdb1
    have hev : db1.events = db.events :=
      processMessage_noFault_events_of_dup userID inboxID _ nowTs db meta h
    have hob : db1.outbox.map (fun r => r.msgId) =
        db.outbox.map (fun r => r.msgId) ++ [emailReceivedMsgId meta.provider meta.messageID] :=
      processMessage_noFault_outbox_msgIds userID inboxID _ nowTs db meta
    have h1 : db1.events.any
        (fun r => r.provider = meta.provider && r.providerMessageId = meta.messageID) = true := by
      rw [hev]; exact h
    obtain ⟨ih1, ih2⟩ := processStream_replicate_dup userID inboxID nowTs meta k (n + 1) db1 h1
    refine ⟨by rw [ih1, hev], ?_⟩
    rw [ih2, hob, List.append_assoc]
    simp [List.replicate_succ]

/-- C1 (invariants): for every record stream handed to the event processor,
a second attempt to insert an event with the same
`(provider, provider_message_id)` is a silent no-op on the event log —
after processing `k` duplicates of one message the event log holds exactly
one matching row (and only that row), while the outbox row is written
unconditionally in the same transaction, so the outbox holds `k` rows all
carrying the same `msg_id`. -/
theorem event_log_unique_outbox_unconditional (userID inboxID : String)
    (nowTs : Int) (meta : MessageMeta) (k : Nat) (hk : 0 < k) :
    ((processStream userID inboxID nowTs 0 emptyDb (List.replicate k meta)).events.filter
        (fun r => r.provider = meta.provider && r.providerMessageId = meta.messageID)).length = 1 ∧
    (processStream userID inboxID nowTs 0 emptyDb (List.replicate k meta)).events.length = 1 ∧
    (processStream userID inboxID nowTs 0 emptyDb (List.replicate k meta)).outbox.length = k ∧
    ∀ r ∈ (processStream userID inboxID nowTs 0 emptyDb (List.replicate k meta)).outbox,
      r.msgId = emailReceivedMsgId meta.provider meta.messageID := by
  obtain ⟨j, rfl⟩ : ∃ j, k = j + 1 := ⟨k - 1, (Nat.succ_pred_eq_of_pos hk).symm⟩
  rw [List.replicate_succ]
  simp only [processStream]
  set db1 := (processMessage userID inboxID ("evt-" ++ toString 0) nowTs noFault emptyDb meta).1
    with hdb1
  have hev1 : db1.events = [mkEventRow userID inboxID ("evt-" ++ toString 0) nowTs meta] := by
    rw [hdb1, processMessage_noFault_fst]
    simp [insertConflicts, emptyDb]
  have hob1 : db1.outbox.map (fun r => r.msgId) =
      [emailReceivedMsgId meta.provider meta.messageID] := by
    rw [hdb1, processMessage_noFault_outbox_msgIds]
    simp [emptyDb]
  have h1 : db1.events.any
      (fun r => r.provider = meta.provider && r.providerMessageId = meta.messageID) = true := by
    rw [hev1]; simp [mkEventRow]
  obtain ⟨ih1, ih2⟩ := processStream_replicate_dup userID inboxID nowTs meta j 1 db1 h1
  have hmap : (processStream userID inboxID nowTs 1 db1 (List.replicate j meta)).outbox.map
      (fun r => r.msgId) =
      List.replicate (j + 1) (emailReceivedMsgId meta.provider meta.messageID) := by
    rw [ih2, hob1]
    simp [List.replicate_succ]
  refine ⟨?_, ?_, ?_, ?_⟩
  · rw [ih1, hev1]; simp [mkEventRow]
  · rw [ih1, hev1]; rfl
  · have := congrArg List.length hmap
    simpa using this
  · intro r hr
    have : r.msgId ∈ (processStream userID inboxID nowTs 1 db1
        (List.replicate j meta)).outbox.map (fun r => r.msgId) :=
      List.mem_map_of_mem _ hr
    rw [hmap] at this
    exact List.eq_of_mem_replicate this

/-- Witness for C1 at `k = 3`. -/
def metaS1 : MessageMeta :=
  ⟨"GOOGLE", "u1", "primary", "m1", "t1", "hi", "a@x", [], [], [], "", [], [], 0⟩

theorem event_log_unique_outbox_unconditional_witness :
    (0 : Nat) < 3 ∧
    ((processStream "u1" "primary" 50 0 emptyDb (List.replicate 3 metaS1)).events.filter
        (fun r => r.provider = metaS1.provider && r.providerMessageId = metaS1.messageID)).length = 1 ∧
    (processStream "u1" "primary" 50 0 emptyDb (List.replicate 3 metaS1)).events.length = 1 ∧
    (processStream "u1" "primary" 50 0 emptyDb (List.replicate 3 metaS1)).outbox.length = 3 ∧
    ∀ r ∈ (processStream "u1" "primary" 50 0 emptyDb (List.replicate 3 metaS1)).outbox,
      r.msgId = emailReceivedMsgId metaS1.provider metaS1.messageID :=
  ⟨by decide, event_log_unique_outbox_unconditional "u1" "primary" 50 metaS1 3 (by decide)⟩

/-! ### C4: transaction-failure propagation in the processor -/

/-- Record used as the concrete failing input for C4. -/
def metaC4 : MessageMeta :=
  ⟨"GOOGLE", "u1", "primary", "m9", "t9", "subj", "s@x", [], [], [], "", [], [], 0⟩

/-- C4 (error_handling): the claim says every failure of the event+outbox
transaction (begin, insert, or commit) is propagated to the adapter's sink
callback.  The code propagates begin and commit failures, but a failure of
the inserts inside `AppendEmailReceivedTx` is rolled back and **swallowed**:
the processor returns `nil` (`.ok ()`), the record is silently dropped, and
the adapter does not abort the page — `runner.go:197-201` ignores every
error on that path, not only UNIQUE collisions (which `INSERT OR IGNORE`
already absorbs without error). -/
theorem processor_swallows_insert_failure :
    processMessage "u1" "primary" "e1" 100 ⟨none, some "disk I/O failure", none⟩
        emptyDb metaC4 = (emptyDb, .ok ()) ∧
    processMessage "u1" "primary" "e1" 100 ⟨some "busy", none, none⟩
        emptyDb metaC4 = (emptyDb, .error "failed to begin transaction: busy") ∧
    (processMessage "u1" "primary" "e1" 100 ⟨none, none, some "busy"⟩
        emptyDb metaC4).2 = .error "failed to commit transaction: busy" := by
  refine ⟨rfl, rfl, rfl⟩

/-! ### Store lemmas for the sync-state table -/

lemma loadCursor_map (tbl : SyncTable) (p : String) (g : SyncStateRow → SyncStateRow)
    (hpres : ∀ r, (g r).provider = r.provider) :
    loadCursor (tbl.map g) p =
      (match tbl.find? (fun r => r.provider = p) with
       | some r => (g r).cursor
       | none => "") := by
  induction tbl with
  | nil => rfl
  | cons r rest ih =>
    unfold loadCursor at ih ⊢
    by_cases hr : r.provider = p
    · have h1 : (g r :: rest.map g).find? (fun x => x.provider = p) = some (g r) :=
        List.find?_cons_of_pos _ (by simp [hpres, hr])
      have h2 : (r :: rest).find? (fun x => x.provider = p) = some r :=
        List.find?_cons_of_pos _ (by simp [hr])
      rw [List.map_cons, h1, h2]
    · have h1 : (g r :: rest.map g).find? (fun x => x.provider = p)
          = (rest.map g).find? (fun x => x.provider = p) :=
        List.find?_cons_of_neg _ (by simp [hpres, hr])
      have h2 : (r :: rest).find? (fun x => x.provider = p)
          = rest.find? (fun x => x.provider = p) :=
        List.find?_cons_of_neg _ (by simp [hr])
      rw [List.map_cons, h1, h2]
      exact ih

lemma find?_provider_of_any (tbl : SyncTable) (p : String)
    (h : tbl.any (fun r => r.provider = p) = true) :
    ∃ r0, tbl.find? (fun r => r.provider = p) = some r0 ∧ r0.provider = p := by
  rcases List.any_eq_true.1 h with ⟨r, hmem, hp⟩
  have hsome : (tbl.find? (fun r => r.provider = p)).isSome :=
    List.find?_isSome.2 ⟨r, hmem, hp⟩
  rcases Option.isSome_iff_exists.1 hsome with ⟨r0, hr0⟩
  exact ⟨r0, hr0, by simpa using List.find?_some hr0⟩

lemma find?_provider_of_not_any (tbl : SyncTable) (p : String)
    (h : tbl.any (fun r => r.provider = p) = false) :
    tbl.find? (fun r => r.provider = p) = none := by
  rw [List.find?_eq_none]
  intro x hx hpx
  exact absurd hpx (by simpa using List.any_eq_false.1 h x hx)

lemma loadCursor_saveCheckpoint (tbl : SyncTable) (p i c s : String) (now : Int) :
    loadCursor (saveCheckpoint tbl p i c s now) p = c := by
  unfold saveCheckpoint
  rcases hany : tbl.any (fun r => r.provider = p) with _ | _
  · simp only [Bool.false_eq_true, if_false]
    unfold loadCursor
    rw [List.find?_append, find?_provider_of_not_any tbl p hany]
    simp [List.find?]
  · simp only [if_true]
    rw [loadCursor_map tbl p _ (fun r => by by_cases hr : r.provider = p <;> simp [hr])]
    rcases find?_provider_of_any tbl p hany with ⟨r0, hr0, hp0⟩
    rw [hr0]
    simp [hp0]

lemma loadCursor_updateSyncStatus (tbl : SyncTable) (p s e : String) (now : Int) :
    loadCursor (updateSyncStatus tbl p s e now) p = loadCursor tbl p := by
  unfold updateSyncStatus
  rw [loadCursor_map tbl p _ (fun r => by by_cases hr : r.provider = p <;> simp [hr])]
  unfold loadCursor
  rcases hf : tbl.find? (fun r => r.provider = p) with _ | r0 <;> rw [hf]
  · have hp0 : r0.provider = p := by simpa using List.find?_some hf
    simp [hp0]

/-- The table a first-pass load fault is compared against: the same table
with the faulting provider\x27s cursor wiped. -/
def clearCursor (tbl : SyncTable) (p : String) : SyncTable :=
  tbl.map (fun r => if r.provider = p then { r with cursor := "" } else r)

lemma loadCursor_clearCursor (tbl : SyncTable) (p : String) :
    loadCursor (clearCursor tbl p) p = "" := by
  unfold clearCursor
  rw [loadCursor_map tbl p _ (fun r => by by_cases hr : r.provider = p <;> simp [hr])]
  rcases hf : tbl.find? (fun r => r.provider = p) with _ | r0 <;> rw [hf]
  · have hp0 : r0.provider = p := by simpa using List.find?_some hf
    simp [hp0]

lemma any_provider_clearCursor (tbl : SyncTable) (p : String) :
    (clearCursor tbl p).any (fun r => r.provider = p) =
      tbl.any (fun r => r.provider = p) := by
  unfold clearCursor
  induction tbl with
  | nil => rfl
  | cons r rest ih =>
    by_cases hr : r.provider = p
    · simp [hr]
    · simp [hr, ih]

lemma saveCheckpoint_clearCursor (tbl : SyncTable) (p i c s : String) (now : Int) :
    saveCheckpoint (clearCursor tbl p) p i c s now = saveCheckpoint tbl p i c s now := by
  unfold saveCheckpoint
  rw [any_provider_clearCursor]
  rcases hany : tbl.any (fun r => r.provider = p) with _ | _
  · simp only [Bool.false_eq_true, if_false]
    have hid : clearCursor tbl p = tbl := by
      unfold clearCursor
      have h1 : ∀ r ∈ tbl,
          (if r.provider = p then { r with cursor := "" } else r) = id r := by
        intro r hrmem
        have hnp : ¬(r.provider = p) := by
          simpa using List.any_eq_false.1 hany r hrmem
        simp [hnp]
      rw [List.map_congr_left h1, List.map_id]
    rw [hid]
  · simp only [if_true]
    unfold clearCursor
    rw [List.map_map]
    apply List.map_congr_left
    intro r _
    by_cases hr : r.provider = p <;> simp [Function.comp, hr]

/-! ### C2: persistence of an unchanged cursor on a steady-state tick -/

/-- Table used by the C2 counterexample: a sync-state row whose previous
tick failed (status `ERROR`), cursor `"42"`. -/
def tblC2 : SyncTable := [⟨"GOOGLE", "primary", "42", 50, "ERROR", "boom", 1, 50⟩]

/-- C2 counterexample: a steady-state tick whose adapter succeeds and
returns a cursor equal to the persisted one does **not** upsert
`(cursor, HOOKED)` — `runner.go:117` guards the save with
`newCP.Cursor != cp.Cursor`, so the row is left exactly as it was (here:
still `ERROR`, with the stale timestamps), refuting "is still persisted". -/
theorem steady_tick_equal_cursor_cex :
    steadyTick "GOOGLE" "primary" 100 none
        (fun _ => .ok (some ⟨"42"⟩)) tblC2 = tblC2 ∧
    ∀ r ∈ steadyTick "GOOGLE" "primary" 100 none
        (fun _ => .ok (some ⟨"42"⟩)) tblC2, r.status = "ERROR" ∧ r.updatedAt = 50 := by
  constructor
  · rfl
  · decide

/-- C2 amended: on a successful steady-state tick the runner upserts
`(cursor=returned, status=HOOKED)` **only when** the returned cursor
differs from the previous one; an equal cursor is treated as "no change"
and nothing at all is persisted (status and timestamps keep their previous
values). -/
theorem steady_tick_success_persists_only_changed_cursor
    (p i : String) (now : Int) (incr : String → Except String (Option Checkpoint))
    (tbl : SyncTable) (c : String) (cp : Checkpoint)
    (hload : loadCursor tbl p = c) (hc : c ≠ "")
    (hincr : incr c = .ok (some cp)) :
    (cp.cursor = c → steadyTick p i now none incr tbl = tbl) ∧
    (cp.cursor ≠ c → steadyTick p i now none incr tbl
        = saveCheckpoint tbl p i cp.cursor "HOOKED" now) := by
  unfold steadyTick loadCheckpointResult
  rw [hload]
  simp only [hc, if_false, hincr]
  constructor
  · intro h; simp [h]
  · intro h; simp [h]

/-- Witness for the C2 amended theorem on a concrete healthy row. -/
def tblC2w : SyncTable := [⟨"GOOGLE", "primary", "42", 50, "HOOKED", "", 0, 50⟩]

theorem steady_tick_success_persists_only_changed_cursor_witness :
    steadyTick "GOOGLE" "primary" 100 none
        (fun _ => .ok (some ⟨"42"⟩)) tblC2w = tblC2w :=
  (steady_tick_success_persists_only_changed_cursor "GOOGLE" "primary" 100
      (fun _ => .ok (some ⟨"42"⟩)) tblC2w "42" ⟨"42"⟩ rfl (by decide) rfl).1 rfl

/-! ### C3: an empty returned cursor over a non-empty previous one -/

/-- Table used by the C3 counterexample: healthy row with cursor `"42"`. -/
def tblC3 : SyncTable := [⟨"GOOGLE", "primary", "42", 50, "HOOKED", "", 0, 50⟩]

/-- C3 counterexample: when the adapter returns an **empty** cursor while
the persisted one is `"42"`, the tick is treated as an ordinary change —
`"" != "42"` passes the guard at `runner.go:117` — so the empty cursor is
persisted with `status=HOOKED` and the last known good cursor is destroyed;
no `ERROR` transition happens, refuting the claimed protection. -/
theorem steady_tick_empty_cursor_cex :
    steadyTick "GOOGLE" "primary" 100 none
        (fun _ => .ok (some ⟨""⟩)) tblC3
      = [⟨"GOOGLE", "primary", "", 100, "HOOKED", "", 0, 100⟩] ∧
    loadCursor (steadyTick "GOOGLE" "primary" 100 none
        (fun _ => .ok (some ⟨""⟩)) tblC3) "GOOGLE" = "" := by
  constructor
  · rfl
  · rfl

/-- C3 amended: a returned cursor that is empty while the previous one was
non-empty is **persisted like any other changed cursor**, with
`status=HOOKED`; the previous cursor is overwritten and the tick is not
treated as an error (the code has no checkpoint-loss protection). -/
theorem steady_tick_empty_cursor_overwrites
    (p i : String) (now : Int) (incr : String → Except String (Option Checkpoint))
    (tbl : SyncTable) (c : String)
    (hload : loadCursor tbl p = c) (hc : c ≠ "")
    (hincr : incr c = .ok (some ⟨""⟩)) :
    steadyTick p i now none incr tbl = saveCheckpoint tbl p i "" "HOOKED" now ∧
    loadCursor (steadyTick p i now none incr tbl) p = "" := by
  have hmain : steadyTick p i now none incr tbl = saveCheckpoint tbl p i "" "HOOKED" now := by
    unfold steadyTick loadCheckpointResult
    rw [hload]
    simp only [hc, if_false, hincr]
    simp [Ne.symm hc]
  exact ⟨hmain, by rw [hmain, loadCursor_saveCheckpoint]⟩

def tblC3w : SyncTable := [⟨"MICROSOFT", "inbox", "d7", 50, "HOOKED", "", 0, 50⟩]

theorem steady_tick_empty_cursor_overwrites_witness :
    steadyTick "MICROSOFT" "inbox" 100 none
        (fun _ => .ok (some ⟨""⟩)) tblC3w
      = saveCheckpoint tblC3w "MICROSOFT" "inbox" "" "HOOKED" 100 ∧
    loadCursor (steadyTick "MICROSOFT" "inbox" 100 none
        (fun _ => .ok (some ⟨""⟩)) tblC3w) "MICROSOFT" = "" :=
  steady_tick_empty_cursor_overwrites "MICROSOFT" "inbox" 100
    (fun _ => .ok (some ⟨""⟩)) tblC3w "d7" rfl (by decide) rfl

/-! ### C5: error handling of failing ticks -/

/-- C5 counterexample: an error on the **first** pass does not keep the
sync loop running — `runner.go:72-75` returns the error from `RunInbox`
(second component `some …`), so the runner terminates and there is no
next-tick retry, refuting "the sync loop continues" for the first pass
(the `ERROR` row itself is written, with the message and an incremented
`retry_count`). -/
theorem first_pass_error_terminates_runner_cex :
    firstPass "GOOGLE" "primary" 100 none (.error "boom")
        (fun _ => .ok none) ([] : SyncTable)
      = ([⟨"GOOGLE", "primary", "", 100, "ERROR", "boom", 1, 100⟩],
         some "sync failed: boom") := by
  rfl

/-- C5 amended: a failing steady-state tick records `status=ERROR` with the
error message, leaves the persisted cursor untouched, and the loop
continues; but an error on the first pass, while also recording
`status=ERROR` and keeping the cursor, makes `RunInbox` **return** the
error — the runner terminates instead of retrying. -/
theorem tick_error_records_error_keeps_cursor :
    (∀ (p i : String) (now : Int)
        (incr : String → Except String (Option Checkpoint))
        (tbl : SyncTable) (c e : String),
      loadCursor tbl p = c → c ≠ "" → incr c = .error e →
      steadyTick p i now none incr tbl = updateSyncStatus tbl p "ERROR" e now ∧
      loadCursor (steadyTick p i now none incr tbl) p = c) ∧
    (∀ (p i : String) (now : Int) (bf : Except String (Option Checkpoint))
        (incr : String → Except String (Option Checkpoint))
        (tbl : SyncTable) (c e : String),
      loadCursor tbl p = c → c ≠ "" → incr c = .error e →
      firstPass p i now none bf incr tbl
        = (updateSyncStatus (saveCheckpoint tbl p i c "SYNCING" now) p "ERROR" e now,
           some ("sync failed: " ++ e)) ∧
      loadCursor (firstPass p i now none bf incr tbl).1 p = c) := by
  constructor
  · intro p i now incr tbl c e hload hc hincr
    have hmain : steadyTick p i now none incr tbl = updateSyncStatus tbl p "ERROR" e now := by
      unfold steadyTick loadCheckpointResult
      rw [hload]
      simp [hc, hincr]
    refine ⟨hmain, ?_⟩
    rw [hmain, loadCursor_updateSyncStatus, hload]
  · intro p i now bf incr tbl c e hload hc hincr
    have hmain : firstPass p i now none bf incr tbl
        = (updateSyncStatus (saveCheckpoint tbl p i c "SYNCING" now) p "ERROR" e now,
           some ("sync failed: " ++ e)) := by
      unfold firstPass loadCheckpointResult
      rw [hload]
      simp [hc, hincr]
    refine ⟨hmain, ?_⟩
    rw [hmain]
    simp only
    rw [loadCursor_updateSyncStatus, loadCursor_saveCheckpoint]

def tblC5w : SyncTable := [⟨"GOOGLE", "primary", "41", 50, "HOOKED", "", 0, 50⟩]

theorem tick_error_records_error_keeps_cursor_witness :
    steadyTick "GOOGLE" "primary" 100 none
        (fun _ => .error "rate limited") tblC5w
      = updateSyncStatus tblC5w "GOOGLE" "ERROR" "rate limited" 100 ∧
    loadCursor (steadyTick "GOOGLE" "primary" 100 none
        (fun _ => .error "rate limited") tblC5w) "GOOGLE" = "41" :=
  tick_error_records_error_keeps_cursor.1 "GOOGLE" "primary" 100
    (fun _ => .error "rate limited") tblC5w "41" "rate limited" rfl (by decide) rfl

/-! ### C9: a checkpoint-load fault at runner start -/

/-- C9 (implicit): when loading the checkpoint at runner start fails,
`RunInbox` only logs the error (`runner.go:46-49`) and proceeds with the
`""` cursor that `LoadCheckpoint` returned — exactly as if no cursor
existed: it writes `(cursor="", status=SYNCING)` and performs the full
initial backfill.  Formally, a faulting first pass on any table equals a
fault-free first pass on the table with that provider's cursor wiped, for
**any** pair of incremental oracles (the incremental path is never taken). -/
theorem load_fault_behaves_as_no_cursor
    (p i : String) (now : Int) (e : String)
    (bf : Except String (Option Checkpoint))
    (incrA incrB : String → Except String (Option Checkpoint))
    (tbl : SyncTable) :
    firstPass p i now (some e) bf incrA tbl
      = firstPass p i now none bf incrB (clearCursor tbl p) := by
  simp only [firstPass, loadCheckpointResult, loadCursor_clearCursor,
    saveCheckpoint_clearCursor, if_true]

/-! ### C8: manager uniqueness per triple -/

lemma startSync_nodup (m : RunnerMap) (u i p : String)
    (t f : Except String Unit) (h : m.Nodup) : (startSync m u i p t f).1.Nodup := by
  unfold startSync
  by_cases hmem : syncKey u i p ∈ m
  · simp [hmem, h]
  · by_cases hp : p = providerGoogle ∨ p = providerMicrosoft
    · rcases t with e | u1
      · simp [hmem, hp, h]
      · rcases f with e | u2
        · simp [hmem, hp, h]
        · simp only [hmem, hp]
          simp [hmem, h]
    · simp [hmem, hp, h]

lemma applyMgrOp_nodup (m : RunnerMap) (op : MgrOp) (h : m.Nodup) :
    (applyMgrOp m op).Nodup := by
  rcases op with ⟨u, i, p, t, f⟩ | ⟨u, i, p⟩ | ⟨u, i, p⟩ | _
  · exact startSync_nodup m u i p t f h
  · unfold applyMgrOp stopSync
    by_cases hmem : syncKey u i p ∈ m
    · simpa [hmem] using h.erase _
    · simpa [hmem] using h
  · exact h.erase _
  · exact List.nodup_nil

lemma applyMgrOps_foldl_nodup (ops : List MgrOp) :
    ∀ (m : RunnerMap), m.Nodup → (ops.foldl applyMgrOp m).Nodup := by
  induction ops with
  | nil => intro m h; exact h
  | cons op rest ih =>
    intro m h
    exact ih (applyMgrOp m op) (applyMgrOp_nodup m op h)

/-- C8 (invariants): at most one runner per `(tenant, inbox, provider)`
triple is ever registered.  (1) After any sequence of manager operations
from process start, every key occurs at most once in the map; (2) a start
for a triple already present fails with the already-running error and
registers nothing (the map is returned unchanged); (3) `StopSync` removes
the handle so the key is no longer registered; (4) `StopAll` clears the
map.  All map mutations happen under the exclusive `runnersMutex` lock in
the source, so this interleaving model is faithful. -/
theorem manager_at_most_one_runner_per_triple :
    (∀ (ops : List MgrOp) (k : String), (applyMgrOps ops).count k ≤ 1) ∧
    (∀ (m : RunnerMap) (u i p : String) (t f : Except String Unit),
        syncKey u i p ∈ m →
        startSync m u i p t f = (m, some "sync already running")) ∧
    (∀ (m : RunnerMap) (u i p : String), m.Nodup →
        syncKey u i p ∉ (stopSync m u i p).1) ∧
    (∀ m : RunnerMap, stopAllSyncs m = []) := by
  refine ⟨?_, ?_, ?_, fun _ => rfl⟩
  · intro ops k
    have hnd : (applyMgrOps ops).Nodup :=
      applyMgrOps_foldl_nodup ops [] List.nodup_nil
    exact List.nodup_iff_count_le_one.1 hnd k
  · intro m u i p t f hmem
    unfold startSync
    simp [hmem]
  · intro m u i p hnd
    unfold stopSync
    by_cases hmem : syncKey u i p ∈ m
    · simp only [hmem, if_true]
      intro hk
      rcases (hnd.mem_erase_iff.1 (by simpa [hmem] using hk)) with ⟨hne, _⟩
      exact hne rfl
    · simp [stopSync, hmem]

theorem manager_at_most_one_runner_per_triple_witness :
    startSync ["u1:primary:GOOGLE"] "u1" "primary" "GOOGLE" (.ok ()) (.ok ())
      = (["u1:primary:GOOGLE"], some "sync already running") :=
  manager_at_most_one_runner_per_triple.2.1 ["u1:primary:GOOGLE"]
    "u1" "primary" "GOOGLE" (.ok ()) (.ok ()) (by decide)

/-! ### C6: pagination driven to completion -/

/-- Sink that always accepts (a processor whose transactions succeed). -/
def sinkOk : SinkFn := fun _ => none

def msgO1 : OutlookMessage :=
  ⟨some "a", some "c1", some "s1", some "x@y", none, none, none,
    some "p1", some 111, none⟩

def msgO2 : OutlookMessage :=
  ⟨some "b", some "c2", some "s2", some "z@y", none, none, none,
    some "p2", some 222, none⟩

/-- A mailbox whose provider enumeration spans two pages. -/
def graphTwoPages : GraphService := ⟨[[msgO1], [msgO2]], none⟩

/-- C6 (functional_correctness): the claim — both adapters drive pagination
to completion, delivering every enumerable message — fails for the
Outlook/Graph adapter: both of its methods issue a single `Messages().Get`
with `Top: 100` and process only `result.GetValue()`; no `nextLink`/delta
link is ever followed (the code itself says "For now, we'll use a simple
cursor … In production, you would use the delta link").  On a mailbox whose
enumeration has two pages, only the first page's message is delivered.
(The Gmail adapter does drive `call.Pages` to completion.) -/
theorem outlook_delivers_only_first_page :
    graphTwoPages.pages.flatten.length = 2 ∧
    outlookInitialBackfill graphTwoPages sinkOk "u2"
      = ([normalizeOutlook msgO1 "u2"], .ok (some ⟨"a"⟩)) ∧
    outlookIncrementalSync graphTwoPages sinkOk "u2" ⟨"a"⟩
      = ([normalizeOutlook msgO1 "u2"], .ok (some ⟨"a"⟩)) := by
  refine ⟨rfl, rfl, rfl⟩

/-! ### C7: stale-cursor fallback to full backfill -/

/-- C7 (functional_correctness): when the history walk fails with a
provider error mentioning `404` or `historyId` (cursor refused as too old),
`IncrementalSync` falls back to a full `InitialBackfill` through the same
sink: the call's delivered records are the records delivered before the
failure followed by the backfill's, and its result is exactly the
backfill's result — so whenever the backfill succeeds with a fresh cursor
the runner observes an ordinary success. -/
theorem gmail_stale_cursor_falls_back_to_backfill
    (svc : GmailService) (fn : SinkFn) (user : String) (cp : Checkpoint)
    (start : Nat) (e : String)
    (hp : parseUint64 cp.cursor = some start)
    (he : (gmailHistoryOutcome svc fn user start).2 = some e)
    (hstale : (hasSubstr e "404" || hasSubstr e "historyId") = true) :
    gmailIncrementalSync svc fn user cp
      = ((gmailHistoryOutcome svc fn user start).1.delivered
          ++ (gmailInitialBackfill svc fn user).1,
         (gmailInitialBackfill svc fn user).2) ∧
    ∀ (d : List MessageMeta) (r : Option Checkpoint),
      gmailInitialBackfill svc fn user = (d, .ok r) →
      (gmailIncrementalSync svc fn user cp).2 = .ok r := by
  have hc : ¬(cp.cursor = "") := by
    intro h
    rw [h] at hp
    have h2 : (none : Option Nat) = some start := hp
    exact Option.noConfusion h2
  have hmain : gmailIncrementalSync svc fn user cp
      = ((gmailHistoryOutcome svc fn user start).1.delivered
          ++ (gmailInitialBackfill svc fn user).1,
         (gmailInitialBackfill svc fn user).2) := by
    simp only [gmailIncrementalSync, hc, if_false, hp, he, hstale, if_true]
  refine ⟨hmain, ?_⟩
  intro d r hbf
  rw [hmain, hbf]

/-- Concrete Gmail oracle for the C7 witness (scenario S3 of the spec): the
history listing is refused with an error mentioning `historyId`, and the
backfill enumerates one message and reads `HistoryId = 99`. -/
def gmailSvcC7 : GmailService :=
  { listPages := [["m1"]]
    listErr := none
    getMessage := fun mid =>
      .ok ⟨mid, "t1", "snip", ["INBOX"], 1700000000000,
        [("Subject", "hi"), ("From", "a@x")]⟩
    historyRecords := []
    historyErr := some "googleapi: Error 404: historyId not found"
    profile := .ok 99 }

theorem gmail_stale_cursor_falls_back_to_backfill_witness :
    gmailIncrementalSync gmailSvcC7 sinkOk "me" ⟨"1"⟩
      = ((gmailHistoryOutcome gmailSvcC7 sinkOk "me" 1).1.delivered
          ++ (gmailInitialBackfill gmailSvcC7 sinkOk "me").1,
         (gmailInitialBackfill gmailSvcC7 sinkOk "me").2) :=
  (gmail_stale_cursor_falls_back_to_backfill gmailSvcC7 sinkOk "me" ⟨"1"⟩
    1 "googleapi: Error 404: historyId not found"
    (by decide) rfl (by decide)).1

/-! ### C10: dedup and cursor monotonicity of Gmail incremental sync -/

lemma gmailProcessAdded_latest (svc : GmailService) (fn : SinkFn) (user : String) :
    ∀ (mids : List String) (acc : HistAcc),
      (gmailProcessAdded svc fn user mids acc).1.latest = acc.latest := by
  intro mids
  induction mids with
  | nil => intro acc; rfl
  | cons mid rest ih =>
    intro acc
    unfold gmailProcessAdded
    by_cases hmem : acc.processed.contains mid
    · simp only [hmem, if_true]
      exact ih acc
    · simp only [hmem, Bool.false_eq_true, if_false]
      rcases svc.getMessage mid with e | m
      · rfl
      · dsimp only
        rcases fn (normalize m user) with _ | e
        · exact ih _
        · rfl

lemma gmailProcessHistory_latest (svc : GmailService) (fn : SinkFn) (user : String) :
    ∀ (recs : List HistoryRecord) (acc : HistAcc),
      (gmailProcessHistory svc fn user recs acc).2 = none →
      (gmailProcessHistory svc fn user recs acc).1.latest
        = recs.foldl (fun l r => if r.id > l then r.id else l) acc.latest := by
  intro recs
  induction recs with
  | nil => intro acc _; rfl
  | cons r rest ih =>
    intro acc hok
    unfold gmailProcessHistory at hok ⊢
    rcases hstep : gmailProcessAdded svc fn user r.messagesAdded
        { acc with latest := if r.id > acc.latest then r.id else acc.latest }
      with ⟨acc1, e?⟩
    rcases e? with _ | e
    · simp only [hstep] at hok ⊢
      rw [ih acc1 hok, List.foldl_cons]
      have hlat : acc1.latest = if r.id > acc.latest then r.id else acc.latest := by
        have := gmailProcessAdded_latest svc fn user r.messagesAdded
          { acc with latest := if r.id > acc.latest then r.id else acc.latest }
        rw [hstep] at this
        exact this
      rw [hlat]
    · simp [hstep] at hok

lemma foldl_latest_eq_foldl_max (recs : List HistoryRecord) :
    ∀ a : Nat,
      recs.foldl (fun l r => if r.id > l then r.id else l) a
        = (recs.map (fun r => r.id)).foldl max a := by
  induction recs with
  | nil => intro a; rfl
  | cons r rest ih =>
    intro a
    simp only [List.foldl_cons, List.map_cons]
    rw [ih]
    congr 1
    rcases Nat.lt_or_ge a r.id with h | h
    · rw [if_pos h, Nat.max_eq_right (Nat.le_of_lt h)]
    · rw [if_neg (Nat.not_lt.2 h), Nat.max_eq_left h]

lemma le_foldl_max : ∀ (l : List Nat) (a : Nat), a ≤ l.foldl max a := by
  intro l
  induction l with
  | nil => intro a; exact Nat.le_refl a
  | cons x rest ih =>
    intro a
    exact Nat.le_trans (Nat.le_max_left a x) (ih (max a x))

lemma gmailProcessAdded_inv (svc : GmailService) (fn : SinkFn) (user : String)
    (hget : ∀ mid m, svc.getMessage mid = .ok m → m.id = mid) :
    ∀ (mids : List String) (acc : HistAcc),
      (acc.delivered.map (fun m => m.messageID)).Nodup →
      (∀ x ∈ acc.delivered.map (fun m => m.messageID), x ∈ acc.processed) →
      ((gmailProcessAdded svc fn user mids acc).1.delivered.map
          (fun m => m.messageID)).Nodup ∧
      (∀ x ∈ (gmailProcessAdded svc fn user mids acc).1.delivered.map
          (fun m => m.messageID),
        x ∈ (gmailProcessAdded svc fn user mids acc).1.processed) := by
  intro mids
  induction mids with
  | nil => intro acc hnd hsub; exact ⟨hnd, hsub⟩
  | cons mid rest ih =>
    intro acc hnd hsub
    unfold gmailProcessAdded
    by_cases hmem : acc.processed.contains mid
    · simp only [hmem, if_true]
      exact ih acc hnd hsub
    · have hnmem : mid ∉ acc.processed := by
        simpa using hmem
      simp only [hmem, Bool.false_eq_true, if_false]
      rcases hg : svc.getMessage mid with e | m
      · refine ⟨hnd, ?_⟩
        intro x hx
        exact List.mem_append_left _ (hsub x hx)
      · have hid : (normalize m user).messageID = mid := hget mid m hg
        have hnd2 : ((acc.delivered ++ [normalize m user]).map
            (fun m => m.messageID)).Nodup := by
          rw [List.map_append]
          refine List.Nodup.append hnd (by simp) ?_
          intro x hx hy
          simp only [List.map_cons, List.map_nil, List.mem_singleton] at hy
          rw [hy, hid] at hx
          exact hnmem (hsub _ hx)
        have hsub2 : ∀ x ∈ (acc.delivered ++ [normalize m user]).map
            (fun m => m.messageID), x ∈ acc.processed ++ [mid] := by
          intro x hx
          rw [List.map_append] at hx
          rcases List.mem_append.1 hx with hx | hx
          · exact List.mem_append_left _ (hsub x hx)
          · simp only [List.map_cons, List.map_nil, List.mem_singleton] at hx
            rw [hx, hid]
            simp
        dsimp only
        rcases fn (normalize m user) with _ | e
        · exact ih _ hnd2 hsub2
        · exact ⟨hnd2, hsub2⟩

lemma gmailProcessHistory_inv (svc : GmailService) (fn : SinkFn) (user : String)
    (hget : ∀ mid m, svc.getMessage mid = .ok m → m.id = mid) :
    ∀ (recs : List HistoryRecord) (acc : HistAcc),
      (acc.delivered.map (fun m => m.messageID)).Nodup →
      (∀ x ∈ acc.delivered.map (fun m => m.messageID), x ∈ acc.processed) →
      ((gmailProcessHistory svc fn user recs acc).1.delivered.map
          (fun m => m.messageID)).Nodup := by
  intro recs
  induction recs with
  | nil => intro acc hnd _; exact hnd
  | cons r rest ih =>
    intro acc hnd hsub
    unfold gmailProcessHistory
    rcases hstep : gmailProcessAdded svc fn user r.messagesAdded
        { acc with latest := if r.id > acc.latest then r.id else acc.latest }
      with ⟨acc1, e?⟩
    have hinv := gmailProcessAdded_inv svc fn user hget r.messagesAdded
      { acc with latest := if r.id > acc.latest then r.id else acc.latest }
      hnd hsub
    rw [hstep] at hinv
    rcases e? with _ | e
    · simp only [hstep]
      exact ih acc1 hinv.1 hinv.2
    · simp only [hstep]
      exact hinv.1

/-- C10 (algebraic_relational): for a Gmail incremental call with a
non-empty numeric cursor that completes without error (hence without the
stale-cursor fallback): the sink is invoked at most once per provider
message id (the delivered records carry pairwise-distinct message ids,
given that `Users.Messages.Get(id)` returns a message with that id); the
returned cursor is the decimal rendering of the maximum history id
observed, with the input cursor's value counting as the initially observed
id; and that maximum is ≥ the input cursor's numeric value — the cursor
never decreases. -/
theorem gmail_incremental_dedup_and_monotone_cursor
    (svc : GmailService) (fn : SinkFn) (user : String) (cp : Checkpoint)
    (start : Nat)
    (hp : parseUint64 cp.cursor = some start)
    (hok : (gmailHistoryOutcome svc fn user start).2 = none)
    (hget : ∀ mid m, svc.getMessage mid = .ok m → m.id = mid) :
    gmailIncrementalSync svc fn user cp
      = ((gmailHistoryOutcome svc fn user start).1.delivered,
         .ok (some ⟨toString (gmailHistoryOutcome svc fn user start).1.latest⟩)) ∧
    ((gmailHistoryOutcome svc fn user start).1.delivered.map
        (fun m => m.messageID)).Nodup ∧
    (gmailHistoryOutcome svc fn user start).1.latest
      = (svc.historyRecords.map (fun r => r.id)).foldl max start ∧
    start ≤ (gmailHistoryOutcome svc fn user start).1.latest := by
  have hc : ¬(cp.cursor = "") := by
    intro h
    rw [h] at hp
    have h2 : (none : Option Nat) = some start := hp
    exact Option.noConfusion h2
  have hwalk : (gmailProcessHistory svc fn user svc.historyRecords
      ⟨start, [], []⟩).2 = none := by
    simp only [gmailHistoryOutcome] at hok
    rcases hw : (gmailProcessHistory svc fn user svc.historyRecords
        ⟨start, [], []⟩).2 with _ | e
    · rfl
    · rw [hw] at hok
      simp at hok
  have hfst : (gmailHistoryOutcome svc fn user start).1
      = (gmailProcessHistory svc fn user svc.historyRecords ⟨start, [], []⟩).1 := by
    simp only [gmailHistoryOutcome]
    rcases hw : (gmailProcessHistory svc fn user svc.historyRecords
        ⟨start, [], []⟩).2 with _ | e <;> rfl
  refine ⟨?_, ?_, ?_, ?_⟩
  · simp only [gmailIncrementalSync, hc, if_false, hp, hok]
  · rw [hfst]
    exact gmailProcessHistory_inv svc fn user hget svc.historyRecords
      ⟨start, [], []⟩ (by simp) (by simp)
  · rw [hfst, gmailProcessHistory_latest svc fn user svc.historyRecords
      ⟨start, [], []⟩ hwalk]
    exact foldl_latest_eq_foldl_max svc.historyRecords start
  · rw [hfst, gmailProcessHistory_latest svc fn user svc.historyRecords
      ⟨start, [], []⟩ hwalk, foldl_latest_eq_foldl_max svc.historyRecords start]
    exact le_foldl_max _ start

/-- Concrete Gmail oracle for the C10 witness: two history records with a
repeated message id; maximum observed history id 5, input cursor 2. -/
def gmailSvcC10 : GmailService :=
  { listPages := []
    listErr := none
    getMessage := fun mid => .ok ⟨mid, "t", "", [], 0, []⟩
    historyRecords := [⟨5, ["m1", "m2", "m1"]⟩, ⟨3, ["m2"]⟩]
    historyErr := none
    profile := .ok 0 }

theorem gmail_incremental_dedup_and_monotone_cursor_witness :
    gmailIncrementalSync gmailSvcC10 sinkOk "me" ⟨"2"⟩
      = ((gmailHistoryOutcome gmailSvcC10 sinkOk "me" 2).1.delivered,
         .ok (some ⟨toString (gmailHistoryOutcome gmailSvcC10 sinkOk "me" 2).1.latest⟩)) ∧
    ((gmailHistoryOutcome gmailSvcC10 sinkOk "me" 2).1.delivered.map
        (fun m => m.messageID)).Nodup ∧
    (gmailHistoryOutcome gmailSvcC10 sinkOk "me" 2).1.latest
      = (gmailSvcC10.historyRecords.map (fun r => r.id)).foldl max 2 ∧
    2 ≤ (gmailHistoryOutcome gmailSvcC10 sinkOk "me" 2).1.latest :=
  gmail_incremental_dedup_and_monotone_cursor gmailSvcC10 sinkOk "me" ⟨"2"⟩ 2
    (by decide) rfl
    (fun mid m h => by
      have h2 : (⟨mid, "t", "", [], 0, []⟩ : GmailMessage) = m := by
        simpa [gmailSvcC10] using h
      rw [← h2])

end AiBrain
